import Mathlib

/-!
# Verification of the K-line projection pipeline (`src/app.py`)

Shallow embedding of the core pipeline of the stock "what-if" charting app:

* dates are modelled as `Nat` day numbers counted from a Monday epoch, so the
  Python `date.weekday()` (Monday = 0 … Sunday = 6) is `d % 7` and the weekend
  test `weekday() >= 5` is `d % 7 ≥ 5`;
* prices and volumes are modelled as exact rationals `ℚ`;
* the pandas dataframe `df_full` is a `List Bar`; the per-window rolling-mean
  columns `MA5 … MA120` are association pairs `(window, column)` where a column
  is a `List (Option ℚ)` (`none` is pandas `NaN`);
* `df.iloc[-(k):]` for `k > 0` is `lastSlice k`;
* the module-level script guarded by `if not raw_df.empty:` is the total
  function `run`, returning `none` for the `else: st.warning(...)` branch.
-/

/-- One row of the fetched historical dataframe (`raw_df` columns
日期/开盘/最高/最低/收盘/成交量), before the `is_predict` column is added. -/
structure RawBar where
  date : Nat
  opn : ℚ
  high : ℚ
  low : ℚ
  close : ℚ
  volume : ℚ
deriving Repr, DecidableEq

/-- One row of the working dataframe after line 67 `df['is_predict'] = False`
added the origin tag. Projected rows (lines 89–93) also use this shape. -/
structure Bar where
  date : Nat
  opn : ℚ
  high : ℚ
  low : ℚ
  close : ℚ
  volume : ℚ
  is_predict : Bool
deriving Repr, DecidableEq

/-- Line 67: tag a fetched row as historical (`is_predict = False`). -/
def rawToBar (r : RawBar) : Bar :=
  { date := r.date, opn := r.opn, high := r.high, low := r.low,
    close := r.close, volume := r.volume, is_predict := false }

/-- One entry of `predict_settings` (lines 31–40): a dict
`{"type": "price" | "percent", "value": v}`. -/
inductive Target where
  | price (v : ℚ)
  | percent (v : ℚ)
deriving Repr, DecidableEq

/-- Line 80: `while current_date.weekday() >= 5: current_date += timedelta(days=1)`.
Day numbers count from a Monday epoch, so `d % 7 ≥ 5` is the weekend test. -/
def skipWeekend (d : Nat) : Nat :=
  if d % 7 ≥ 5 then skipWeekend (d + 1) else d
termination_by (7 - d % 7) % 7
decreasing_by omega

/-- Lines 79–80: `current_date += timedelta(days=1)` followed by the
weekend-skipping `while` loop. -/
def advance (d : Nat) : Nat :=
  skipWeekend (d + 1)

/-- Lines 82–87: compute `target_p` from one setting and the running reference
price.  The `if item['type'] == "price" and item['value'] > 0` guard sends a
non-positive absolute price to the final `else: target_p = current_ref_price`. -/
def targetPrice (item : Target) (ref : ℚ) : ℚ :=
  match item with
  | .price v => if v > 0 then v else ref
  | .percent v => ref * (1 + v / 100)

/-- Lines 78–94: the projection loop.  State `(current_ref_price, current_date)`
threads through; each iteration advances the date past weekends, computes
`target_p`, appends a projected row (open = running price, close = `target_p`,
high/low = max/min of the two, volume 0) and sets the running price to
`target_p`. -/
def projectLoop : List Target → ℚ → Nat → List Bar
  | [], _, _ => []
  | item :: rest, refPrice, d =>
    let d' := advance d
    let tp := targetPrice item refPrice
    { date := d', opn := refPrice, high := max refPrice tp,
      low := min refPrice tp, close := tp, volume := 0, is_predict := true }
      :: projectLoop rest tp d'

/-- Lines 101–103: `df_full['收盘'].rolling(m).mean()`.  Entry `i` is `NaN`
(`none`) while fewer than `w` observations exist, and otherwise the mean of the
`w` values ending at index `i`. -/
def rollingMean (w : Nat) (xs : List ℚ) : List (Option ℚ) :=
  (List.range xs.length).map fun i =>
    if i + 1 < w then none
    else some (((xs.drop (i + 1 - w)).take w).sum / (w : ℚ))

/-- Line 101: `ma_list = [5, 10, 20, 60, 120]`. -/
def ma_list : List Nat := [5, 10, 20, 60, 120]

/-- Line 106 slicing, `df.iloc[-(k):]` for `k > 0`: the trailing `k` rows, or
the whole list when fewer than `k` rows exist. -/
def lastSlice (k : Nat) (xs : List α) : List α :=
  xs.drop (xs.length - k)

/-- Line 106 applied to every column of `df_full`: the bar columns and the
five moving-average columns are sliced with the same trailing count
`lookback + 5`. -/
def selectDisplay (lookback : Nat) (df : List Bar)
    (mas : List (Nat × List (Option ℚ))) :
    List Bar × List (Nat × List (Option ℚ)) :=
  (lastSlice (lookback + 5) df, mas.map fun p => (p.1, lastSlice (lookback + 5) p.2))

/-- The data produced by the `if not raw_df.empty:` branch (lines 64–106):
the merged dataframe, its moving-average columns, and the display slice of
both. -/
structure RunOut where
  df_full : List Bar
  maFull : List (Nat × List (Option ℚ))
  plot : List Bar
  maPlot : List (Nat × List (Option ℚ))
deriving Repr, DecidableEq

/-- Lines 64–106 as one function of the fetched rows, the prediction settings
and the lookback: `none` is the `else` branch (line 143, the "no data"
warning); otherwise the last row gives `last_price`/`last_date` (lines 70–71),
the projection loop runs, `df_full` is the concatenation (line 97), the five
rolling means are computed over it (lines 101–103) and line 106 takes the
trailing `lookback + 5` rows of every column. -/
def run (raw : List RawBar) (settings : List Target) (lookback : Nat) :
    Option RunOut :=
  match raw.getLast? with
  | none => none
  | some lastRaw =>
    let df := raw.map rawToBar
    let future := projectLoop settings lastRaw.close lastRaw.date
    let df_full := df ++ future
    let maFull := ma_list.map fun m => (m, rollingMean m (df_full.map Bar.close))
    let sel := selectDisplay lookback df_full maFull
    some { df_full := df_full, maFull := maFull, plot := sel.1, maPlot := sel.2 }

/-! ## Concrete inputs and outputs used to evaluate the definitions -/

/-- Four historical days (Monday–Thursday, day numbers 0–3) with closes 1…4. -/
def raw4c1 : List RawBar :=
  [⟨0, 1, 1, 1, 1, 0⟩, ⟨1, 2, 2, 2, 2, 0⟩, ⟨2, 3, 3, 3, 3, 0⟩,
   ⟨3, 4, 4, 4, 4, 0⟩]

/-- The pipeline output on `raw4c1` with no targets and lookback 120: the four
bars survive whole and every moving-average window stays undefined, four bars
being fewer than the smallest window 5. -/
def out4c1 : RunOut :=
  { df_full := raw4c1.map rawToBar
    maFull := [(5, List.replicate 4 none),
      (10, List.replicate 4 none), (20, List.replicate 4 none),
      (60, List.replicate 4 none), (120, List.replicate 4 none)]
    plot := raw4c1.map rawToBar
    maPlot := [(5, List.replicate 4 none),
      (10, List.replicate 4 none), (20, List.replicate 4 none),
      (60, List.replicate 4 none), (120, List.replicate 4 none)] }

/-- Seven historical days with closes 1…7, used to exercise the display
slice with a small lookback. -/
def raw7c5 : List RawBar :=
  [⟨0, 1, 1, 1, 1, 0⟩, ⟨1, 2, 2, 2, 2, 0⟩, ⟨2, 3, 3, 3, 3, 0⟩,
   ⟨3, 4, 4, 4, 4, 0⟩, ⟨4, 5, 5, 5, 5, 0⟩, ⟨5, 6, 6, 6, 6, 0⟩,
   ⟨6, 7, 7, 7, 7, 0⟩]

/-- A single historical day. -/
def raw1c5 : List RawBar := [⟨0, 10, 11, 9, 10, 100⟩]

/-- The pipeline output on `raw1c5` with no targets and lookback 0. -/
def out1c5 : RunOut :=
  { df_full := raw1c5.map rawToBar
    maFull := [(5, [none]), (10, [none]), (20, [none]), (60, [none]), (120, [none])]
    plot := raw1c5.map rawToBar
    maPlot := [(5, [none]), (10, [none]), (20, [none]), (60, [none]), (120, [none])] }

/-- A single historical day, used against the empty target list. -/
def raw1c8 : List RawBar := [⟨0, 10, 11, 9, 10, 100⟩]

/-- The pipeline output on `raw1c8` with the structurally invalid empty target
list and lookback 120: a normal result, not a distinct failure state. -/
def out1c8 : RunOut :=
  { df_full := raw1c8.map rawToBar
    maFull := [(5, [none]), (10, [none]), (20, [none]), (60, [none]), (120, [none])]
    plot := raw1c8.map rawToBar
    maPlot := [(5, [none]), (10, [none]), (20, [none]), (60, [none]), (120, [none])] }

/-! ## Basic lemmas about the calendar advance -/

/-- Closed form of the weekend-skip loop: a Saturday moves two days, a Sunday
one day, a weekday stays put. -/
theorem skipWeekend_eq (d : Nat) :
    skipWeekend d = if d % 7 = 5 then d + 2 else if d % 7 = 6 then d + 1 else d := by
  by_cases h5 : d % 7 = 5
  · rw [skipWeekend, if_pos (by omega), skipWeekend, if_pos (by omega),
      skipWeekend, if_neg (by omega), if_pos h5]
  · by_cases h6 : d % 7 = 6
    · rw [skipWeekend, if_pos (by omega), skipWeekend, if_neg (by omega),
        if_neg h5, if_pos h6]
    · rw [skipWeekend, if_neg (by omega), if_neg h5, if_neg h6]

theorem skipWeekend_ge (d : Nat) : d ≤ skipWeekend d := by
  rw [skipWeekend_eq]; split_ifs <;> omega

theorem skipWeekend_weekday (d : Nat) : skipWeekend d % 7 < 5 := by
  rw [skipWeekend_eq]; split_ifs <;> omega

theorem advance_gt (d : Nat) : d < advance d :=
  Nat.lt_of_lt_of_le (Nat.lt_succ_self d) (skipWeekend_ge (d + 1))

theorem advance_weekday (d : Nat) : advance d % 7 < 5 :=
  skipWeekend_weekday (d + 1)

/-! ## Structural lemmas about the projection loop -/

theorem projectLoop_length (ts : List Target) : ∀ (r : ℚ) (d : Nat),
    (projectLoop ts r d).length = ts.length := by
  induction ts with
  | nil => intro r d; rfl
  | cons t rest ih => intro r d; simp [projectLoop, ih]

theorem projectLoop_chain_advance (ts : List Target) : ∀ (r : ℚ) (d : Nat),
    List.Chain (fun a b => b = advance a) d ((projectLoop ts r d).map Bar.date) := by
  induction ts with
  | nil => intro r d; simp [projectLoop]
  | cons t rest ih =>
    intro r d
    simp only [projectLoop, List.map_cons]
    exact List.Chain.cons rfl (ih _ _)

theorem projectLoop_chain_lt (ts : List Target) : ∀ (r : ℚ) (d : Nat),
    List.Chain (· < ·) d ((projectLoop ts r d).map Bar.date) := by
  induction ts with
  | nil => intro r d; simp [projectLoop]
  | cons t rest ih =>
    intro r d
    simp only [projectLoop, List.map_cons]
    exact List.Chain.cons (advance_gt d) (ih _ _)

theorem projectLoop_weekday (ts : List Target) : ∀ (r : ℚ) (d : Nat),
    ∀ b ∈ projectLoop ts r d, b.date % 7 < 5 := by
  induction ts with
  | nil => intro r d b hb; simp [projectLoop] at hb
  | cons t rest ih =>
    intro r d b hb
    rcases List.mem_cons.mp hb with h | h
    · rw [h]; exact advance_weekday d
    · exact ih _ _ b h

theorem projectLoop_head_opn (ts : List Target) (r : ℚ) (d : Nat) :
    ∀ b ∈ (projectLoop ts r d).head?, b.opn = r := by
  cases ts with
  | nil => intro b hb; simp [projectLoop] at hb
  | cons t rest =>
    intro b hb
    simp only [projectLoop, List.head?_cons, Option.mem_def, Option.some_inj] at hb
    rw [← hb]

theorem projectLoop_chain_opn (ts : List Target) : ∀ (r : ℚ) (d : Nat),
    List.Chain' (fun a b => b.opn = a.close) (projectLoop ts r d) := by
  induction ts with
  | nil => intro r d; simp [projectLoop]
  | cons t rest ih =>
    intro r d
    simp only [projectLoop]
    exact List.chain'_cons'.mpr ⟨fun y hy => projectLoop_head_opn _ _ _ y hy, ih _ _⟩

theorem projectLoop_getElem_close (ts : List Target) : ∀ (r : ℚ) (d : Nat)
    (i : Nat) (h1 : i < (projectLoop ts r d).length) (h2 : i < ts.length),
    ((projectLoop ts r d)[i]).close = targetPrice ts[i] ((projectLoop ts r d)[i]).opn := by
  induction ts with
  | nil => intro r d i h1 h2; exact absurd h2 (by simp)
  | cons t rest ih =>
    intro r d i h1 h2
    cases i with
    | zero => rfl
    | succ n =>
      simp only [projectLoop, List.getElem_cons_succ]
      exact ih _ _ n (by simpa [projectLoop, projectLoop_length] using h1)
        (by simpa using h2)

theorem projectLoop_fields (ts : List Target) : ∀ (r : ℚ) (d : Nat),
    ∀ b ∈ projectLoop ts r d,
      b.high = max b.opn b.close ∧ b.low = min b.opn b.close ∧
      b.volume = 0 ∧ b.is_predict = true := by
  induction ts with
  | nil => intro r d b hb; simp [projectLoop] at hb
  | cons t rest ih =>
    intro r d b hb
    rcases List.mem_cons.mp hb with h | h
    · rw [h]; exact ⟨rfl, rfl, rfl, rfl⟩
    · exact ih _ _ b h

theorem projectLoop_replicate_percent_zero (n : Nat) : ∀ (r : ℚ) (d : Nat),
    ∀ b ∈ projectLoop (List.replicate n (Target.percent 0)) r d, b.close = r := by
  induction n with
  | zero => intro r d b hb; simp [projectLoop] at hb
  | succ n ih =>
    intro r d b hb
    rw [List.replicate_succ] at hb
    simp only [projectLoop, targetPrice] at hb
    have hr : r * (1 + (0 : ℚ) / 100) = r := by norm_num
    rw [hr] at hb
    rcases List.mem_cons.mp hb with h | h
    · rw [h]
    · exact ih r (advance d) b h

/-! ## Claims about the projection loop and the empty-data guard -/

/-- Claim C2: for every target list of length n with 1 ≤ n ≤ 5, every reference
price and every reference date, the projection produces exactly n bars whose
dates are strictly increasing, never fall on a Saturday or Sunday
(day number mod 7 is below 5 with a Monday epoch), and where each bar's date is
obtained from the previous date by advancing one calendar day and then skipping
forward one day at a time while the day is a weekend day (`advance`). -/
theorem claim2_projection_dates (ts : List Target) (r : ℚ) (d : Nat)
    (hn1 : 1 ≤ ts.length) (hn5 : ts.length ≤ 5) :
    (projectLoop ts r d).length = ts.length ∧
    ((projectLoop ts r d).map Bar.date).Pairwise (· < ·) ∧
    (∀ b ∈ projectLoop ts r d, b.date % 7 < 5) ∧
    List.Chain (fun a b => b = advance a) d ((projectLoop ts r d).map Bar.date) := by
  refine ⟨projectLoop_length ts r d, ?_, projectLoop_weekday ts r d,
    projectLoop_chain_advance ts r d⟩
  exact (List.chain_iff_pairwise.mp (projectLoop_chain_lt ts r d)).of_cons

/-- Witness for C2 at the one-element percent target list, price 1, date 0. -/
theorem claim2_projection_dates_witness :
    (projectLoop [Target.percent 0] 1 0).length = ([Target.percent 0] : List Target).length ∧
    ((projectLoop [Target.percent 0] 1 0).map Bar.date).Pairwise (· < ·) ∧
    (∀ b ∈ projectLoop [Target.percent 0] 1 0, b.date % 7 < 5) ∧
    List.Chain (fun a b => b = advance a) 0
      ((projectLoop [Target.percent 0] 1 0).map Bar.date) :=
  claim2_projection_dates [Target.percent 0] 1 0 (by decide) (by decide)

/-- Claim C3: a percent-mode target with value p yields close equal to the
running price times (1 + p/100), and the tail of the loop chains off that
close (not the original reference); consequently a target list made only of
`percent 0` entries keeps every projected close equal to the reference price. -/
theorem claim3_percent_close (p r : ℚ) (d : Nat) (rest : List Target) (n : Nat) :
    projectLoop (Target.percent p :: rest) r d =
      { date := advance d, opn := r, high := max r (r * (1 + p / 100)),
        low := min r (r * (1 + p / 100)), close := r * (1 + p / 100),
        volume := 0, is_predict := true }
        :: projectLoop rest (r * (1 + p / 100)) (advance d) ∧
    ∀ b ∈ projectLoop (List.replicate n (Target.percent 0)) r d, b.close = r :=
  ⟨rfl, projectLoop_replicate_percent_zero n r d⟩

/-- Witness for C3 at p = 5, reference 2, date 0, empty tail, two zero-percent
days. -/
theorem claim3_percent_close_witness :
    projectLoop (Target.percent 5 :: []) 2 0 =
      { date := advance 0, opn := 2, high := max 2 (2 * (1 + 5 / 100)),
        low := min 2 (2 * (1 + 5 / 100)), close := 2 * (1 + 5 / 100),
        volume := 0, is_predict := true }
        :: projectLoop [] (2 * (1 + 5 / 100)) (advance 0) ∧
    ∀ b ∈ projectLoop (List.replicate 2 (Target.percent 0)) 2 0, b.close = 2 :=
  claim3_percent_close 5 2 0 [] 2

/-- Claim C4: a price-mode target with value v yields close v when v is
strictly positive, and otherwise is a no-op: the close is the running price
unchanged, while the bar is still emitted and the loop continues with the
unchanged price. -/
theorem claim4_price_close (v r : ℚ) (d : Nat) (rest : List Target) :
    projectLoop (Target.price v :: rest) r d =
      { date := advance d, opn := r,
        high := max r (if v > 0 then v else r),
        low := min r (if v > 0 then v else r),
        close := if v > 0 then v else r,
        volume := 0, is_predict := true }
        :: projectLoop rest (if v > 0 then v else r) (advance d) := rfl

/-- Claim C6: an empty historical list makes the pipeline return the explicit
"no data" result (`none`): no projection and no moving-average output exists,
never partial output. -/
theorem claim6_empty_no_data (settings : List Target) (lookback : Nat) :
    run [] settings lookback = none := rfl

/-- Claim C7: every projected bar has open equal to the running price before
its step (the reference for the first bar, the previous close afterwards),
close equal to the target price of its step, high = max(open, close),
low = min(open, close) and volume 0. -/
theorem claim7_projected_bar_invariants (ts : List Target) (r : ℚ) (d : Nat)
    (i : Nat) (h1 : i < (projectLoop ts r d).length) (h2 : i < ts.length) :
    (∀ b ∈ projectLoop ts r d,
      b.high = max b.opn b.close ∧ b.low = min b.opn b.close ∧
      b.volume = 0 ∧ b.is_predict = true) ∧
    (∀ b ∈ (projectLoop ts r d).head?, b.opn = r) ∧
    List.Chain' (fun a b => b.opn = a.close) (projectLoop ts r d) ∧
    ((projectLoop ts r d)[i]).close = targetPrice ts[i] ((projectLoop ts r d)[i]).opn :=
  ⟨projectLoop_fields ts r d, projectLoop_head_opn ts r d,
    projectLoop_chain_opn ts r d, projectLoop_getElem_close ts r d i h1 h2⟩

/-- Witness for C7 at the one-element price target list, reference 3, date 0,
index 0. -/
theorem claim7_projected_bar_invariants_witness :
    (∀ b ∈ projectLoop [Target.price 7] 3 0,
      b.high = max b.opn b.close ∧ b.low = min b.opn b.close ∧
      b.volume = 0 ∧ b.is_predict = true) ∧
    (∀ b ∈ (projectLoop [Target.price 7] 3 0).head?, b.opn = 3) ∧
    List.Chain' (fun a b => b.opn = a.close) (projectLoop [Target.price 7] 3 0) ∧
    ((projectLoop [Target.price 7] 3 0).get ⟨0, by decide⟩).close =
      targetPrice (([Target.price 7] : List Target).get ⟨0, by decide⟩)
        ((projectLoop [Target.price 7] 3 0).get ⟨0, by decide⟩).opn :=
  claim7_projected_bar_invariants [Target.price 7] 3 0 0 (by decide) (by decide)

/-- Claim C10: the projection places no lower bound on prices: a percent-mode
target with p ≤ -100 applied to a positive running price yields a close that is
zero or negative, the bar is still emitted with high = max(open, close) and
low = min(open, close), and the rest of the loop chains off that non-positive
close with no clamping and no error. -/
theorem claim10_no_price_floor (p r : ℚ) (d : Nat) (rest : List Target)
    (hp : p ≤ -100) (hr : 0 < r) :
    r * (1 + p / 100) ≤ 0 ∧
    projectLoop (Target.percent p :: rest) r d =
      { date := advance d, opn := r, high := max r (r * (1 + p / 100)),
        low := min r (r * (1 + p / 100)), close := r * (1 + p / 100),
        volume := 0, is_predict := true }
        :: projectLoop rest (r * (1 + p / 100)) (advance d) := by
  refine ⟨?_, rfl⟩
  have h1 : 1 + p / 100 ≤ 0 := by linarith
  exact mul_nonpos_iff.mpr (Or.inl ⟨hr.le, h1⟩)

/-- Witness for C10 at p = -150, reference 10, date 0: the projected close is
10 · (1 − 150/100) = −5. -/
theorem claim10_no_price_floor_witness :
    (10 : ℚ) * (1 + (-150) / 100) ≤ 0 ∧
    projectLoop (Target.percent (-150) :: []) 10 0 =
      { date := advance 0, opn := 10, high := max 10 (10 * (1 + (-150) / 100)),
        low := min 10 (10 * (1 + (-150) / 100)), close := 10 * (1 + (-150) / 100),
        volume := 0, is_predict := true }
        :: projectLoop [] (10 * (1 + (-150) / 100)) (advance 0) :=
  claim10_no_price_floor (-150) 10 0 [] (by norm_num) (by norm_num)

/-! ## The rolling mean and the pipeline -/

theorem sum_take_drop (xs : List ℚ) (a w : Nat) (h : a + w ≤ xs.length) :
    ((xs.drop a).take w).sum = ∑ j ∈ Finset.range w, xs.getD (a + j) 0 := by
  induction w with
  | zero => simp
  | succ w ih =>
    rw [List.take_succ, List.sum_append, ih (by omega), Finset.sum_range_succ]
    have hlt : a + w < xs.length := by omega
    have hb : (xs.drop a)[w]? = some xs[a + w] := by
      rw [List.getElem?_drop, List.getElem?_eq_getElem hlt]
    rw [hb, List.getD_eq_getElem?_getD, List.getElem?_eq_getElem hlt]
    simp

theorem rollingMean_length (w : Nat) (xs : List ℚ) :
    (rollingMean w xs).length = xs.length := by
  simp [rollingMean]

theorem rollingMean_getElem? (w : Nat) (xs : List ℚ) (i : Nat) (hi : i < xs.length) :
    (rollingMean w xs)[i]? =
      some (if i + 1 < w then none
        else some ((∑ j ∈ Finset.range w, xs.getD (i + 1 - w + j) 0) / (w : ℚ))) := by
  unfold rollingMean
  rw [List.getElem?_map, List.getElem?_range hi, Option.map_some']
  by_cases hc : i + 1 < w
  · simp [hc]
  · simp only [hc, if_false]
    rw [sum_take_drop xs (i + 1 - w) w (by omega)]

theorem lastSlice_length (k : Nat) (xs : List α) :
    (lastSlice k xs).length = min k xs.length := by
  simp [lastSlice]; omega

theorem lastSlice_of_le (k : Nat) (xs : List α) (h : xs.length ≤ k) :
    lastSlice k xs = xs := by
  simp [lastSlice, Nat.sub_eq_zero_of_le h]

theorem lastSlice_idem (k : Nat) (xs : List α) :
    lastSlice k (lastSlice k xs) = lastSlice k xs :=
  lastSlice_of_le k _ (by rw [lastSlice_length]; omega)

/-- Unfolding of `run` on a non-empty historical list. -/
theorem run_eq_some (raw : List RawBar) (ts : List Target) (lb : Nat)
    (lastRaw : RawBar) (h : raw.getLast? = some lastRaw) :
    run raw ts lb = some
      { df_full := raw.map rawToBar ++ projectLoop ts lastRaw.close lastRaw.date
        maFull := ma_list.map fun m =>
          (m, rollingMean m
            ((raw.map rawToBar ++ projectLoop ts lastRaw.close lastRaw.date).map Bar.close))
        plot := lastSlice (lb + 5)
          (raw.map rawToBar ++ projectLoop ts lastRaw.close lastRaw.date)
        maPlot := (ma_list.map fun m =>
          (m, rollingMean m
            ((raw.map rawToBar ++ projectLoop ts lastRaw.close lastRaw.date).map Bar.close))).map
              fun p => (p.1, lastSlice (lb + 5) p.2) } := by
  unfold run
  rw [h]
  rfl

/-- Claim C1: in every pipeline run, for every window/column pair of the
moving-average set and every 0-based index i of the merged series, the value at
i is undefined (`none`) exactly when i + 1 < m, and otherwise is the arithmetic
mean of the close values of the m bars ending at and including index i of the
merged series; the merged series is the full history followed by one projected
bar per target, so a projected bar's window can reach back into historical
closes. -/
theorem claim1_moving_average (raw : List RawBar) (ts : List Target) (lb : Nat)
    (out : RunOut) (h : run raw ts lb = some out)
    (m : Nat) (col : List (Option ℚ)) (hmc : (m, col) ∈ out.maFull)
    (i : Nat) (hi : i < out.df_full.length) :
    out.df_full.length = raw.length + ts.length ∧
    out.df_full.take raw.length = raw.map rawToBar ∧
    m ∈ ma_list ∧
    col.length = out.df_full.length ∧
    (col[i]? = some none ↔ i + 1 < m) ∧
    (m ≤ i + 1 →
      col[i]? = some (some ((∑ j ∈ Finset.range m,
        (out.df_full.map Bar.close).getD (i + 1 - m + j) 0) / (m : ℚ)))) := by
  cases hlast : raw.getLast? with
  | none =>
    have hraw : raw = [] := List.getLast?_eq_none_iff.mp hlast
    rw [hraw] at h
    exact absurd h (by simp [run])
  | some lastRaw =>
    rw [run_eq_some raw ts lb lastRaw hlast] at h
    injection h with h
    subst h
    dsimp only at hmc hi ⊢
    obtain ⟨m0, hm0, heq⟩ := List.mem_map.mp hmc
    injection heq with h1 h2
    subst h1
    subst h2
    have hi' : i < ((List.map rawToBar raw ++
        projectLoop ts lastRaw.close lastRaw.date).map Bar.close).length := by
      simpa using hi
    have hget := rollingMean_getElem? m0
      ((List.map rawToBar raw ++ projectLoop ts lastRaw.close lastRaw.date).map Bar.close) i hi'
    refine ⟨?_, ?_, hm0, ?_, ?_, ?_⟩
    · simp [projectLoop_length]
    · rw [show raw.length = (raw.map rawToBar).length by simp, List.take_left]
    · simp [rollingMean_length]
    · rw [hget]
      by_cases hc : i + 1 < m0
      · simp [hc]
      · simp [hc]
    · intro hm6
      rw [hget, if_neg (by omega)]

/-- Witness for C1 on four historical closes 1…4, no targets, lookback 120,
window 5, index 3: with only four bars the MA5 value is still undefined. -/
theorem claim1_moving_average_witness :
    out4c1.df_full.length = raw4c1.length + ([] : List Target).length ∧
    out4c1.df_full.take raw4c1.length = raw4c1.map rawToBar ∧
    5 ∈ ma_list ∧
    (List.replicate 4 (none : Option ℚ)).length = out4c1.df_full.length ∧
    ((List.replicate 4 (none : Option ℚ))[3]? = some none ↔ 3 + 1 < 5) ∧
    (5 ≤ 3 + 1 →
      (List.replicate 4 (none : Option ℚ))[3]? =
        some (some ((∑ j ∈ Finset.range 5,
          (out4c1.df_full.map Bar.close).getD (3 + 1 - 5 + j) 0) / ((5 : Nat) : ℚ)))) :=
  claim1_moving_average raw4c1 [] 120 out4c1 (by decide) 5
    (List.replicate 4 none) (by decide) 3 (by decide)

/-- Counterexample to C5 as stated: with seven historical bars, one target and
lookback 1, the display slice is the trailing 1 + 5 = 6 rows (the constant 5 of
line 106), not the trailing lookback + projected_count = 2 rows that the claim
predicts. -/
theorem claim5_counterexample :
    (run raw7c5 [Target.price 8] 1).map RunOut.plot ≠
      (run raw7c5 [Target.price 8] 1).map
        (fun o => lastSlice (1 + ([Target.price 8] : List Target).length) o.df_full) := by
  decide

/-- Claim C5 (amended): the display selection returns the trailing
lookback + 5 entries of the merged series — the constant 5, which coincides
with the projected count only when exactly five targets are supplied — with
the moving-average columns sliced by the same count and staying aligned
index-for-index; if the series is shorter than lookback + 5 the entire series
is returned unmodified, with no error and no padding. -/
theorem claim5_display_slice (raw : List RawBar) (ts : List Target) (lb : Nat)
    (out : RunOut) (h : run raw ts lb = some out) :
    out.plot = lastSlice (lb + 5) out.df_full ∧
    out.plot.length = min (lb + 5) out.df_full.length ∧
    (out.df_full.length ≤ lb + 5 → out.plot = out.df_full) ∧
    out.maPlot = out.maFull.map (fun p => (p.1, lastSlice (lb + 5) p.2)) ∧
    ∀ p ∈ out.maPlot, p.2.length = out.plot.length := by
  cases hlast : raw.getLast? with
  | none =>
    have hraw : raw = [] := List.getLast?_eq_none_iff.mp hlast
    rw [hraw] at h
    exact absurd h (by simp [run])
  | some lastRaw =>
    rw [run_eq_some raw ts lb lastRaw hlast] at h
    injection h with h
    subst h
    refine ⟨rfl, lastSlice_length _ _, fun hle => lastSlice_of_le _ _ hle, rfl, ?_⟩
    intro p hp
    dsimp only at hp
    obtain ⟨q, hq, rfl⟩ := List.mem_map.mp hp
    obtain ⟨m0, hm0, rfl⟩ := List.mem_map.mp hq
    dsimp only
    rw [lastSlice_length, lastSlice_length, rollingMean_length, List.length_map]

/-- Witness for C5 (amended) on a single historical bar, no targets and
lookback 0: the series is shorter than 0 + 5, so it is returned whole. -/
theorem claim5_display_slice_witness :
    out1c5.plot = lastSlice (0 + 5) out1c5.df_full ∧
    out1c5.plot.length = min (0 + 5) out1c5.df_full.length ∧
    (out1c5.df_full.length ≤ 0 + 5 → out1c5.plot = out1c5.df_full) ∧
    out1c5.maPlot = out1c5.maFull.map (fun p => (p.1, lastSlice (0 + 5) p.2)) ∧
    ∀ p ∈ out1c5.maPlot, p.2.length = out1c5.plot.length :=
  claim5_display_slice raw1c5 [] 0 out1c5 (by decide)

/-- Counterexample to C8 as stated: a target list of length 0 is structurally
invalid, yet the pipeline returns the normal result below — there is no
validation failure distinct from the "no data" state. -/
theorem claim8_counterexample : run raw1c8 [] 120 = some out1c8 := by decide

/-- Claim C8 (amended): the core never raises — `run` is a total function —
and it performs no structural validation: the only input that produces the
distinguished "no data" result is an empty historical list, and every other
input, including target lists of length 0 or more than 5 and historical lists
with non-monotonic dates, flows through the normal path. -/
theorem claim8_no_validation (raw : List RawBar) (ts : List Target) (lb : Nat) :
    run raw ts lb = none ↔ raw = [] := by
  unfold run
  cases hlast : raw.getLast? with
  | none => simp [List.getLast?_eq_none_iff.mp hlast]
  | some lastRaw =>
    have hne : raw ≠ [] := by
      intro hr
      rw [hr] at hlast
      exact absurd hlast (by simp)
    simp [hne]

/-- Claim C9: the display selection is idempotent — applying line 106's
trailing slice to its own output with the same lookback returns that output
unchanged, for the bar columns and the moving-average columns alike. -/
theorem claim9_select_idempotent (lb : Nat) (df : List Bar)
    (mas : List (Nat × List (Option ℚ))) :
    selectDisplay lb (selectDisplay lb df mas).1 (selectDisplay lb df mas).2 =
      selectDisplay lb df mas := by
  unfold selectDisplay
  simp [List.map_map, Function.comp_def, lastSlice_idem]
